import Mathlib

/-!
A shallow embedding of `ga4.go`.

`NewGA4Client` and `GA4Client.SendEvent` are translated statement by statement.
Everything the Go code reads from its surroundings (the runtime constants, the
random source, the wall clock, the UUID generator, the JSON encoder and decoder,
the HTTP transport) is collected in `Env`; everything it changes (the map
objects on the heap, the number of random draws and clock readings) is carried
in `State`.  Each call also returns the list of `Effect`s it performed, in
program order.
-/

namespace GA4

/-! ## Dynamic values and maps -/

/-- A Go value stored in an `interface{}`: null, booleans, integers, strings
and slices, which `encoding/json` encodes, and channels and functions, which
it refuses.  Floating-point values are left out. -/
inductive Value where
  | null : Value
  | bool (b : Bool) : Value
  | int (n : Int) : Value
  | str (s : String) : Value
  | list (xs : List Value) : Value
  | chan : Value
  | func : Value
  deriving Repr

/-- Contents of a `map[string]interface{}` object.  Only `GoMap.get` observes
the contents, so the order of the entries carries no meaning. -/
abbrev GoMap := List (String × Value)

/-- Map read `m[k]`. -/
def GoMap.get (m : GoMap) (k : String) : Option Value :=
  match m with
  | [] => none
  | (k', v) :: rest => if k' = k then some v else GoMap.get rest k

/-- Map write `m[k] = v`: the old entry at `k`, if any, is replaced. -/
def GoMap.set (m : GoMap) (k : String) (v : Value) : GoMap :=
  (k, v) :: m.filter (fun p => decide (p.1 ≠ k))

/-! ## net/url -/

/-- Upper-case hexadecimal digit, as `"0123456789ABCDEF"[n]` in `net/url`. -/
def upperhex (n : Nat) : Char :=
  "0123456789ABCDEF".toList.getD n '0'

/-- The bytes `net/url` leaves alone in a query component: ASCII letters,
digits, and `-`, `_`, `.`, `~`. -/
def unreserved (c : Char) : Bool :=
  c.isAlphanum || c == '-' || c == '_' || c == '.' || c == '~'

/-- Percent-encoding of one byte: `%` followed by two upper-case hex digits. -/
def pctByte (b : UInt8) : List Char :=
  ['%', upperhex (b.toNat / 16), upperhex (b.toNat % 16)]

/-- Escaping of one character by `url.QueryEscape`.  Go walks the UTF-8 bytes
of the string; a byte below 0x80 is a whole character, and every byte of a
longer character is at least 0x80 and so always percent-encoded. -/
def escapeChar (c : Char) : List Char :=
  if unreserved c then [c]
  else if c = ' ' then ['+']
  else (String.utf8EncodeChar c).flatMap pctByte

/-- Model of `url.QueryEscape`. -/
def QueryEscape (s : String) : String :=
  String.mk (s.toList.flatMap escapeChar)

/-- Model of `url.Values`, a `map[string][]string`: each key occurs once. -/
abbrev Values := List (String × List String)

/-- Model of `Values.Add`: append `value` to the values stored at `key`. -/
def Values.Add (v : Values) (key value : String) : Values :=
  match v with
  | [] => [(key, [value])]
  | (k, vs) :: rest =>
    if k = key then (k, vs ++ [value]) :: rest else (k, vs) :: Values.Add rest key value

/-- Lexicographic order on character sequences by code point, which is the
byte-wise order of their UTF-8 encodings that Go uses to compare strings. -/
def ltChars : List Char → List Char → Bool
  | _, [] => false
  | [], _ :: _ => true
  | a :: as, b :: bs =>
    if a.toNat < b.toNat then true
    else if b.toNat < a.toNat then false
    else ltChars as bs

/-- Go string comparison `a < b`. -/
def strLt (a b : String) : Bool :=
  ltChars a.toList b.toList

/-- Insertion of a key into a list of keys sorted in increasing order. -/
def insertKey (k : String) : List String → List String
  | [] => [k]
  | x :: xs => if strLt k x then k :: x :: xs else x :: insertKey k xs

/-- The keys of a `Values`, sorted in increasing order. -/
def Values.sortedKeys (v : Values) : List String :=
  (v.map Prod.fst).foldr insertKey []

/-- Model of `Values.Encode`: for each key in sorted order and each of its
values, `QueryEscape(key) = QueryEscape(value)`, the pieces joined by `&`. -/
def Values.Encode (v : Values) : String :=
  String.intercalate "&"
    (v.sortedKeys.flatMap fun k =>
      ((v.lookup k).getD []).map fun x => QueryEscape k ++ "=" ++ QueryEscape x)

/-! ## Data model -/

/-- Modelled from the spec: the declaration of `Event` is not in the source.
An event is a name and a parameter mapping; a Go map is a reference, so
`Params` is `none` for the nil map and otherwise the address of a map object
on the heap of `State`. -/
structure Event where
  Name : String
  Params : Option Nat
  deriving Repr, DecidableEq

/-- Modelled from the spec: the declaration of `Payload` is not in the source.
The fields are those `SendEvent` fills in. -/
structure Payload where
  ClientID : String
  UserID : String
  TimestampMicros : Int
  Events : List Event
  deriving Repr, DecidableEq

/-- Modelled from the spec: the declaration of `ValidationResponse` is not in
the source; the spec calls it an opaque structure mirroring the remote
service's validation response.  It is kept as the decoded fields. -/
structure ValidationResponse where
  fields : GoMap

/-- The part of `http.Client` that `NewGA4Client` sets: the timeout, in
nanoseconds as `time.Duration` counts. -/
structure HTTPClient where
  Timeout : Nat
  deriving Repr, DecidableEq

/-- Modelled from the spec: the declaration of `GA4Client` is not in the
source.  The fields are those `NewGA4Client` fills in. -/
structure GA4Client where
  measurementID : String
  apiSecret : String
  userID : String
  httpClient : HTTPClient
  debug : Bool
  deriving Repr, DecidableEq

/-- What `SendEvent` uses of an `http.Response`: the status code, and what
`io.ReadAll` on the body yields (the bytes, or a read error). -/
structure Response where
  StatusCode : Int
  Body : Except String String

/-- A version-7 UUID, as its 16 bytes. -/
structure UUID where
  bytes : List Nat
  deriving Repr, DecidableEq

/-- An event with the contents of its parameter map: what the encoder and
`fmt` see when they follow the map reference. -/
structure EventData where
  Name : String
  Params : Option GoMap

/-- A payload with the contents of the parameter maps of its events. -/
structure PayloadData where
  ClientID : String
  UserID : String
  TimestampMicros : Int
  Events : List EventData

/-! ## Surroundings, state and effects -/

/-- Everything `ga4.go` reads from outside itself. -/
structure Env where
  /-- Value of `runtime.GOOS`. -/
  GOOS : String
  /-- Value of `runtime.GOARCH`. -/
  GOARCH : String
  /-- Modelled from the spec: the constant `VERSION` is declared outside the
  source; it is the client's own version string. -/
  VERSION : String
  /-- The `n`-th number drawn from the process-wide random source. -/
  randSource : Nat → Nat
  /-- The `n`-th reading of the wall clock, in nanoseconds since the epoch. -/
  clock : Nat → Int
  /-- Function `uuid.NewV7`: a UUID, or the generator's error. -/
  NewV7 : Int → Except String UUID
  /-- Method `UUID.String`. -/
  UUIDString : UUID → String
  /-- The bytes `encoding/json` produces for a payload it can encode. -/
  jsonEncode : PayloadData → String
  /-- Method `http.Client.Post` for a URL, content type and body: a response,
  or a transport error. -/
  Post : String → String → String → Except String Response
  /-- Function `json.Unmarshal` into a `ValidationResponse`: `none` when the
  bytes do not decode. -/
  jsonDecode : String → Option ValidationResponse

/-- Everything `ga4.go` can change. -/
structure State where
  /-- Contents of the map object at each address. -/
  heap : Nat → GoMap
  /-- First address not yet handed out. -/
  next : Nat
  /-- How many numbers have been drawn from the random source. -/
  randCalls : Nat
  /-- How many times the clock has been read. -/
  clockCalls : Nat

/-- The calls a run makes that the claims speak about, in program order. -/
inductive Effect where
  /-- Call of `uuid.NewV7` with a clock reading. -/
  | newV7 (t : Int)
  /-- The debug line printed before sending. -/
  | printSend (uri : String) (payload : PayloadData)
  /-- Call of `json.Marshal` on the payload. -/
  | marshal (payload : PayloadData)
  /-- Call of `httpClient.Post`. -/
  | post (uri contentType body : String)
  /-- Call of `io.ReadAll` on the response body. -/
  | readAll
  /-- Call of `json.Unmarshal` on the bytes read. -/
  | unmarshal (bs : String)
  /-- The debug line printed after decoding. -/
  | printResponse (status : Int) (v : ValidationResponse)

/-- Whether the effect is a call of `httpClient.Post`. -/
def Effect.isPost : Effect → Bool
  | .post _ _ _ => true
  | _ => false

/-- Whether the effect is a read of the response body. -/
def Effect.isReadAll : Effect → Bool
  | .readAll => true
  | _ => false

/-- Statement `m[k] = v` for the map object at address `r`. -/
def State.assign (s : State) (r : Nat) (k : String) (v : Value) : State :=
  { s with heap := Function.update s.heap r ((s.heap r).set k v) }

/-- Expression `map[string]interface{}{}`: a new, empty map object. -/
def State.newMap (s : State) : Nat × State :=
  (s.next, { s with heap := Function.update s.heap s.next [], next := s.next + 1 })

/-- Call `rand.Int31()`: the next draw, reduced to 31 bits. -/
def State.Int31 (env : Env) (s : State) : Nat × State :=
  (env.randSource s.randCalls % 2 ^ 31, { s with randCalls := s.randCalls + 1 })

/-- Call `time.Now()`: the next clock reading. -/
def State.Now (env : Env) (s : State) : Int × State :=
  (env.clock s.clockCalls, { s with clockCalls := s.clockCalls + 1 })

/-- Method `Time.Unix`: whole seconds since the epoch. -/
def Unix (t : Int) : Int := t / 1000000000

/-- Method `Time.UnixMicro`: whole microseconds since the epoch. -/
def UnixMicro (t : Int) : Int := t / 1000

/-! ## encoding/json -/

mutual
/-- Whether `encoding/json` can encode the value. -/
def Value.encodable : Value → Bool
  | .chan => false
  | .func => false
  | .list xs => Value.allEncodable xs
  | _ => true
/-- Whether `encoding/json` can encode every value of the list. -/
def Value.allEncodable : List Value → Bool
  | [] => true
  | x :: xs => x.encodable && Value.allEncodable xs
end

/-- The event with its parameter map read from the heap. -/
def Event.resolve (heap : Nat → GoMap) (e : Event) : EventData :=
  { Name := e.Name, Params := e.Params.map heap }

/-- The payload with its parameter maps read from the heap. -/
def Payload.resolve (heap : Nat → GoMap) (p : Payload) : PayloadData :=
  { ClientID := p.ClientID, UserID := p.UserID, TimestampMicros := p.TimestampMicros,
    Events := p.Events.map (Event.resolve heap) }

/-- Whether every parameter value of the event can be encoded. -/
def EventData.encodable (e : EventData) : Bool :=
  match e.Params with
  | none => true
  | some m => m.all fun kv => kv.2.encodable

/-- Model of `json.Marshal` on a payload: the strings and the integer always
encode, so it fails exactly when some parameter value cannot be encoded. -/
def jsonMarshal (env : Env) (p : PayloadData) : Except String String :=
  if p.Events.all EventData.encodable then .ok (env.jsonEncode p)
  else .error "json: unsupported type"

/-! ## ga4.go -/

/-- Result of `NewGA4Client`: the two return values, the state afterwards and
the effects performed. -/
structure NewResult where
  client : Option GA4Client
  err : Option String
  state : State
  effects : List Effect

/-- Result of `SendEvent`: the returned error (`none` for nil), the state
afterwards and the effects performed. -/
structure SendResult where
  err : Option String
  state : State
  effects : List Effect

/-- Function `NewGA4Client` (ga4.go, lines 22-42). -/
def NewGA4Client (env : Env) (measurementID apiSecret userID : String) (debug : Bool)
    (s : State) : NewResult :=
  if userID = "" then
    let (now, s) := s.Now env
    match env.NewV7 now with
    | .error err => { client := none, err := some err, state := s, effects := [.newV7 now] }
    | .ok u =>
      let userID := env.UUIDString u
      { client := some { measurementID := measurementID, apiSecret := apiSecret,
                         userID := userID, httpClient := { Timeout := 5 * 1000000000 },
                         debug := debug },
        err := none, state := s, effects := [.newV7 now] }
  else
    { client := some { measurementID := measurementID, apiSecret := apiSecret,
                       userID := userID, httpClient := { Timeout := 5 * 1000000000 },
                       debug := debug },
      err := none, state := s, effects := [] }

/-- The URL `SendEvent` builds (ga4.go, lines 46-55). -/
def requestURI (g : GA4Client) : String :=
  let query : Values := []
  let query := query.Add "api_secret" g.apiSecret
  let query := query.Add "measurement_id" g.measurementID
  if g.debug then
    "https://www.google-analytics.com/debug/mp/collect?" ++ query.Encode
  else
    "https://www.google-analytics.com/mp/collect?" ++ query.Encode

/-- The parameter injection of `SendEvent` (ga4.go, lines 57-63): the event
as the function holds it afterwards, and the state. -/
def injectParams (env : Env) (event : Event) (s : State) : Event × State :=
  let (params, s) :=
    match event.Params with
    | none => s.newMap
    | some r => (r, s)
  let event := { event with Params := some params }
  let s := s.assign params "os" (.str env.GOOS)
  let s := s.assign params "arch" (.str env.GOARCH)
  let s := s.assign params "version" (.str env.VERSION)
  (event, s)

/-- The payload `SendEvent` builds (ga4.go, lines 65-70), and the state after
the random draw and the two clock readings. -/
def buildPayload (env : Env) (g : GA4Client) (event : Event) (s : State) : Payload × State :=
  let (r, s) := s.Int31 env
  let (now1, s) := s.Now env
  let (now2, s) := s.Now env
  ({ ClientID := toString r ++ "." ++ toString (Unix now1),
     UserID := g.userID,
     TimestampMicros := UnixMicro now2,
     Events := [event] }, s)

/-- Method `GA4Client.SendEvent` (ga4.go, lines 45-111). -/
def SendEvent (env : Env) (g : GA4Client) (event : Event) (s : State) : SendResult :=
  let uri := requestURI g
  let (event, s) := injectParams env event s
  let (payload, s) := buildPayload env g event s
  let data := payload.resolve s.heap
  let fx : List Effect := if g.debug then [.printSend uri data] else []
  let fx := fx ++ [.marshal data]
  match jsonMarshal env data with
  | .error _ => { err := some "marshal GA4 request payload failed", state := s, effects := fx }
  | .ok bs =>
    let fx := fx ++ [.post uri "application/json" bs]
    match env.Post uri "application/json" bs with
    | .error _ => { err := some "request GA4 failed", state := s, effects := fx }
    | .ok res =>
      if res.StatusCode ≥ 300 then
        { err := some ("validation response got unexpected status " ++ toString res.StatusCode),
          state := s, effects := fx }
      else if !g.debug then
        { err := none, state := s, effects := fx }
      else
        let fx := fx ++ [.readAll]
        match res.Body with
        | .error _ => { err := some "read GA4 response body failed", state := s, effects := fx }
        | .ok bs =>
          let fx := fx ++ [.unmarshal bs]
          match env.jsonDecode bs with
          | none => { err := some "unmarshal GA4 response body failed", state := s, effects := fx }
          | some validationResponse =>
            let fx := if g.debug then fx ++ [.printResponse res.StatusCode validationResponse] else fx
            { err := none, state := s, effects := fx }

/-- The calls of `httpClient.Post` among the effects.  One call is the whole
exchange the client performs for it; what the client sends on the wire within
the call (it re-sends the POST when it follows a 307 or 308 redirect) is not
an effect of `SendEvent` and is not counted here. -/
def posts (fx : List Effect) : List Effect := fx.filter Effect.isPost

/-- The reads of a response body among the effects. -/
def bodyReads (fx : List Effect) : List Effect := fx.filter Effect.isReadAll

/-! ## Vocabulary of the statements -/

/-- The three assignments of ga4.go, lines 61-63, applied to the contents of
a map. -/
def inject (env : Env) (m : GoMap) : GoMap :=
  ((m.set "os" (.str env.GOOS)).set "arch" (.str env.GOARCH)).set "version" (.str env.VERSION)

/-- The contents of the parameter mapping the caller passes: empty for the
nil map, otherwise what the heap holds at its address. -/
def callerParams (s : State) (event : Event) : GoMap :=
  match event.Params with
  | none => []
  | some r => s.heap r

/-- The state when `SendEvent` reaches `json.Marshal` (ga4.go, line 76). -/
def marshalState (env : Env) (g : GA4Client) (event : Event) (s : State) : State :=
  (buildPayload env g (injectParams env event s).1 (injectParams env event s).2).2

/-- The payload `SendEvent` passes to `json.Marshal` (ga4.go, line 76), with
the contents of its parameter maps at that moment. -/
def sentPayload (env : Env) (g : GA4Client) (event : Event) (s : State) : PayloadData :=
  (buildPayload env g (injectParams env event s).1 (injectParams env event s).2).1.resolve
    (marshalState env g event s).heap

/-- The debug line printed before sending, present only in debug mode. -/
def sendPrint (env : Env) (g : GA4Client) (event : Event) (s : State) : List Effect :=
  if g.debug then [.printSend (requestURI g) (sentPayload env g event s)] else []

/-- A state with one map object at address 0 and nothing drawn or read yet. -/
def stateWith (m : GoMap) : State :=
  { heap := fun r => if r = 0 then m else [], next := 1, randCalls := 0, clockCalls := 0 }

/-- A stand-in for the bytes of the encoder, used in the concrete runs. -/
def sampleEncode (p : PayloadData) : String :=
  p.ClientID ++ "/" ++ p.UserID ++ "/" ++ toString p.TimestampMicros ++ "/" ++
    String.intercalate "," (p.Events.map fun e => e.Name)

/-- A stand-in for the decoder, used in the concrete runs: it decodes the
validation body with no messages and the empty object, and rejects the rest. -/
def sampleDecode (bs : String) : Option ValidationResponse :=
  if bs = "\x7b\"validationMessages\":[]\x7d" then some { fields := [("validationMessages", .list [])] }
  else if bs = "\x7b\x7d" then some { fields := [] }
  else none

/-- Surroundings for the concrete runs: a linux/amd64 build of version 1.0.0
whose transport answers every request with `reply`. -/
def sampleEnv (reply : Except String Response) (uuid : Except String UUID) : Env :=
  { GOOS := "linux", GOARCH := "amd64", VERSION := "1.0.0",
    randSource := fun n => 41 + n,
    clock := fun n => 1700000000123456789 + n,
    NewV7 := fun _ => uuid,
    UUIDString := fun u => String.intercalate "-" (u.bytes.map toString),
    jsonEncode := sampleEncode,
    Post := fun _ _ _ => reply,
    jsonDecode := sampleDecode }

/-- The client of the spec's scenarios. -/
def sampleClient (debug : Bool) : GA4Client :=
  { measurementID := "G-TEST123", apiSecret := "secret1", userID := "u-1",
    httpClient := { Timeout := 5 * 1000000000 }, debug := debug }

/-- The event of the spec's scenarios; its parameter map lives at address 0. -/
def loginEvent : Event := { Name := "login", Params := some 0 }

/-- The parameter map of the spec's scenarios. -/
def loginParams : GoMap := [("method", .str "email")]

/-- A parameter map that already holds the three environment entries of the
sample surroundings, as the map of an event that was submitted before does. -/
def resentParams : GoMap :=
  [("version", .str "1.0.0"), ("arch", .str "amd64"), ("os", .str "linux")]

/-! ## Lemmas -/

theorem GoMap.get_set_self (m : GoMap) (k : String) (v : Value) :
    (m.set k v).get k = some v := by
  simp [GoMap.set, GoMap.get]

theorem GoMap.get_filter_ne (m : GoMap) (k k' : String) (h : k' ≠ k) :
    GoMap.get (m.filter (fun p => decide (p.1 ≠ k))) k' = GoMap.get m k' := by
  induction m with
  | nil => rfl
  | cons p rest ih =>
    obtain ⟨a, b⟩ := p
    by_cases hak : a = k
    · have hf : decide ((a, b).1 ≠ k) = false := by simp [hak]
      have hne : ¬ a = k' := fun h' => h (h'.symm.trans hak)
      rw [List.filter_cons, hf]
      simp only [Bool.false_eq_true, if_false, GoMap.get, hne]
      exact ih
    · have hf : decide ((a, b).1 ≠ k) = true := by simp [hak]
      rw [List.filter_cons, hf]
      simp only [if_true, GoMap.get]
      rw [ih]

theorem GoMap.get_set_ne (m : GoMap) (k k' : String) (v : Value) (h : k' ≠ k) :
    (m.set k v).get k' = m.get k' := by
  have hk : ¬ k = k' := fun h' => h h'.symm
  have := GoMap.get_filter_ne m k k' h
  simp only [GoMap.set, GoMap.get, hk, if_false]
  exact this

theorem inject_get_os (env : Env) (m : GoMap) :
    (inject env m).get "os" = some (.str env.GOOS) := by
  unfold inject
  rw [GoMap.get_set_ne _ _ _ _ (by decide), GoMap.get_set_ne _ _ _ _ (by decide),
    GoMap.get_set_self]

theorem inject_get_arch (env : Env) (m : GoMap) :
    (inject env m).get "arch" = some (.str env.GOARCH) := by
  unfold inject
  rw [GoMap.get_set_ne _ _ _ _ (by decide), GoMap.get_set_self]

theorem inject_get_version (env : Env) (m : GoMap) :
    (inject env m).get "version" = some (.str env.VERSION) := by
  unfold inject
  rw [GoMap.get_set_self]

theorem inject_get_other (env : Env) (m : GoMap) (k : String)
    (h1 : k ≠ "os") (h2 : k ≠ "arch") (h3 : k ≠ "version") :
    (inject env m).get k = m.get k := by
  unfold inject
  rw [GoMap.get_set_ne _ _ _ _ h3, GoMap.get_set_ne _ _ _ _ h2, GoMap.get_set_ne _ _ _ _ h1]

/-- The heap after the injection: the map the event refers to holds the
injected contents, every other address is as before. -/
theorem injectParams_heap_some (env : Env) (event : Event) (s : State) (r : Nat)
    (h : event.Params = some r) :
    (injectParams env event s).1 = event ∧
    (injectParams env event s).2.heap = Function.update s.heap r (inject env (s.heap r)) ∧
    (injectParams env event s).2.next = s.next ∧
    (injectParams env event s).2.randCalls = s.randCalls ∧
    (injectParams env event s).2.clockCalls = s.clockCalls := by
  obtain ⟨name, params⟩ := event
  simp only at h
  subst h
  refine ⟨rfl, ?_, rfl, rfl, rfl⟩
  simp [injectParams, State.assign, inject]

theorem injectParams_heap_none (env : Env) (event : Event) (s : State)
    (h : event.Params = none) :
    (injectParams env event s).1 = { event with Params := some s.next } ∧
    (injectParams env event s).2.heap = Function.update s.heap s.next (inject env []) ∧
    (injectParams env event s).2.randCalls = s.randCalls ∧
    (injectParams env event s).2.clockCalls = s.clockCalls := by
  obtain ⟨name, params⟩ := event
  simp only at h
  subst h
  refine ⟨rfl, ?_, rfl, rfl⟩
  simp [injectParams, State.assign, State.newMap, inject]

theorem SendEvent_unfold (env : Env) (g : GA4Client) (event : Event) (s : State) :
    SendEvent env g event s =
      match jsonMarshal env (sentPayload env g event s) with
      | .error _ =>
        { err := some "marshal GA4 request payload failed",
          state := marshalState env g event s,
          effects := sendPrint env g event s ++ [.marshal (sentPayload env g event s)] }
      | .ok bs =>
        match env.Post (requestURI g) "application/json" bs with
        | .error _ =>
          { err := some "request GA4 failed", state := marshalState env g event s,
            effects := sendPrint env g event s ++ [.marshal (sentPayload env g event s)] ++
              [.post (requestURI g) "application/json" bs] }
        | .ok res =>
          if res.StatusCode ≥ 300 then
            { err := some ("validation response got unexpected status " ++
                toString res.StatusCode),
              state := marshalState env g event s,
              effects := sendPrint env g event s ++ [.marshal (sentPayload env g event s)] ++
                [.post (requestURI g) "application/json" bs] }
          else if g.debug = false then
            { err := none, state := marshalState env g event s,
              effects := sendPrint env g event s ++ [.marshal (sentPayload env g event s)] ++
                [.post (requestURI g) "application/json" bs] }
          else
            match res.Body with
            | .error _ =>
              { err := some "read GA4 response body failed",
                state := marshalState env g event s,
                effects := sendPrint env g event s ++ [.marshal (sentPayload env g event s)] ++
                  [.post (requestURI g) "application/json" bs] ++ [.readAll] }
            | .ok body =>
              match env.jsonDecode body with
              | none =>
                { err := some "unmarshal GA4 response body failed",
                  state := marshalState env g event s,
                  effects := sendPrint env g event s ++
                    [.marshal (sentPayload env g event s)] ++
                    [.post (requestURI g) "application/json" bs] ++ [.readAll] ++
                    [.unmarshal body] }
              | some v =>
                { err := none, state := marshalState env g event s,
                  effects := sendPrint env g event s ++
                    [.marshal (sentPayload env g event s)] ++
                    [.post (requestURI g) "application/json" bs] ++ [.readAll] ++
                    [.unmarshal body] ++ [.printResponse res.StatusCode v] } := by
  unfold SendEvent
  simp only [sentPayload, marshalState, sendPrint]
  cases hm : jsonMarshal env _ with
  | error e => rfl
  | ok bs =>
    simp only []
    cases hp : env.Post (requestURI g) "application/json" bs with
    | error e => rfl
    | ok res =>
      simp only []
      by_cases hc : res.StatusCode ≥ 300
      · simp only [hc, if_true]
      · simp only [hc, if_false]
        cases hd : g.debug with
        | false => simp
        | true =>
          simp only [Bool.not_true, Bool.false_eq_true, if_false, if_true]
          cases hb : res.Body with
          | error e => rfl
          | ok body =>
            simp only []
            cases hj : env.jsonDecode body with
            | none => rfl
            | some v => rfl

theorem posts_sendPrint (env : Env) (g : GA4Client) (event : Event) (s : State) :
    posts (sendPrint env g event s) = [] := by
  unfold sendPrint posts
  split <;> rfl

theorem bodyReads_sendPrint (env : Env) (g : GA4Client) (event : Event) (s : State) :
    bodyReads (sendPrint env g event s) = [] := by
  unfold sendPrint bodyReads
  split <;> rfl

theorem sendPrint_nodebug (env : Env) (g : GA4Client) (event : Event) (s : State)
    (h : g.debug = false) : sendPrint env g event s = [] := by
  simp [sendPrint, h]

theorem posts_append (a b : List Effect) : posts (a ++ b) = posts a ++ posts b := by
  simp [posts]

theorem bodyReads_append (a b : List Effect) :
    bodyReads (a ++ b) = bodyReads a ++ bodyReads b := by
  simp [bodyReads]

theorem mem_sendPrint_post (env : Env) (g : GA4Client) (event : Event) (s : State)
    (u c b : String) : Effect.post u c b ∉ sendPrint env g event s := by
  unfold sendPrint
  split <;> simp

/-- Every request among the effects of `SendEvent` goes to `requestURI g`,
has content type `application/json`, and carries the marshalled payload. -/
theorem SendEvent_post_mem (env : Env) (g : GA4Client) (event : Event) (s : State)
    (u c b : String) (h : Effect.post u c b ∈ (SendEvent env g event s).effects) :
    u = requestURI g ∧ c = "application/json" ∧
      jsonMarshal env (sentPayload env g event s) = .ok b := by
  have hsp := mem_sendPrint_post env g event s u c b
  rw [SendEvent_unfold] at h
  cases hm : jsonMarshal env (sentPayload env g event s) with
  | error e => simp [hm, hsp] at h
  | ok bs =>
    simp only [hm] at h
    cases hp : env.Post (requestURI g) "application/json" bs with
    | error e =>
      simp [hp, hsp] at h
      obtain ⟨h1, h2, h3⟩ := h
      subst h1 h2 h3
      exact ⟨rfl, rfl, rfl⟩
    | ok res =>
      simp only [hp] at h
      split at h
      · simp [hsp] at h
        obtain ⟨h1, h2, h3⟩ := h
        subst h1 h2 h3
        exact ⟨rfl, rfl, rfl⟩
      · split at h
        · simp [hsp] at h
          obtain ⟨h1, h2, h3⟩ := h
          subst h1 h2 h3
          exact ⟨rfl, rfl, rfl⟩
        · split at h
          · simp [hsp] at h
            obtain ⟨h1, h2, h3⟩ := h
            subst h1 h2 h3
            exact ⟨rfl, rfl, rfl⟩
          · split at h <;>
            · simp [hsp] at h
              obtain ⟨h1, h2, h3⟩ := h
              subst h1 h2 h3
              exact ⟨rfl, rfl, rfl⟩

theorem escapeChar_unreserved (c : Char) (h : unreserved c = true) : escapeChar c = [c] := by
  simp [escapeChar, h]

theorem flatMap_escapeChar_id (cs : List Char) (h : ∀ c ∈ cs, unreserved c = true) :
    cs.flatMap escapeChar = cs := by
  induction cs with
  | nil => rfl
  | cons c rest ih =>
    rw [List.flatMap_cons, escapeChar_unreserved c (h c (List.mem_cons_self _ _)),
      ih (fun d hd => h d (List.mem_cons_of_mem _ hd))]
    rfl

theorem query_encode (a m : String) :
    Values.Encode (Values.Add (Values.Add [] "api_secret" a) "measurement_id" m) =
      "api_secret=" ++ QueryEscape a ++ "&measurement_id=" ++ QueryEscape m := by
  have h1 : Values.Add (Values.Add [] "api_secret" a) "measurement_id" m =
      [("api_secret", [a]), ("measurement_id", [m])] := by
    simp [Values.Add]
  have h2 : Values.sortedKeys [("api_secret", [a]), ("measurement_id", [m])] =
      ["api_secret", "measurement_id"] := by
    rfl
  have h3 : QueryEscape "api_secret" = "api_secret" := by decide
  have h4 : QueryEscape "measurement_id" = "measurement_id" := by decide
  rw [h1]
  unfold Values.Encode
  rw [h2]
  apply String.ext
  simp [List.lookup, h3, h4, String.intercalate, String.intercalate.go]

theorem mem_sendPrint_marshal (env : Env) (g : GA4Client) (event : Event) (s : State)
    (d : PayloadData) : Effect.marshal d ∉ sendPrint env g event s := by
  unfold sendPrint
  split <;> simp

/-- The calls of `json.Marshal` among the effects of `SendEvent` are exactly
one call, on `sentPayload`. -/
theorem SendEvent_marshal_mem (env : Env) (g : GA4Client) (event : Event) (s : State)
    (d : PayloadData) :
    Effect.marshal d ∈ (SendEvent env g event s).effects ↔ d = sentPayload env g event s := by
  have hsp := mem_sendPrint_marshal env g event s d
  rw [SendEvent_unfold]
  cases hm : jsonMarshal env (sentPayload env g event s) with
  | error e => simp [hsp]
  | ok bs =>
    simp only []
    cases hp : env.Post (requestURI g) "application/json" bs with
    | error e => simp [hsp]
    | ok res =>
      simp only []
      split
      · simp [hsp]
      · split
        · simp [hsp]
        · split
          · simp [hsp]
          · split <;> simp [hsp]

/-- The state at `json.Marshal`: the caller's map (or the new one) holds the
injected contents, one number was drawn and the clock was read twice. -/
theorem marshalState_eq (env : Env) (g : GA4Client) (event : Event) (s : State) :
    (marshalState env g event s).heap =
        Function.update s.heap (event.Params.getD s.next) (inject env (callerParams s event)) ∧
      (marshalState env g event s).randCalls = s.randCalls + 1 ∧
      (marshalState env g event s).clockCalls = s.clockCalls + 2 := by
  obtain ⟨name, params⟩ := event
  cases params with
  | none =>
    obtain ⟨-, h2, h3, h4⟩ := injectParams_heap_none env ⟨name, none⟩ s rfl
    refine ⟨?_, ?_, ?_⟩
    · simpa [marshalState, buildPayload, State.Now, State.Int31, callerParams] using h2
    · simpa [marshalState, buildPayload, State.Now, State.Int31] using h3
    · simpa [marshalState, buildPayload, State.Now, State.Int31] using h4
  | some r =>
    obtain ⟨-, h2, -, h3, h4⟩ := injectParams_heap_some env ⟨name, some r⟩ s r rfl
    refine ⟨?_, ?_, ?_⟩
    · simpa [marshalState, buildPayload, State.Now, State.Int31, callerParams] using h2
    · simpa [marshalState, buildPayload, State.Now, State.Int31] using h3
    · simpa [marshalState, buildPayload, State.Now, State.Int31] using h4

/-- The payload handed to `json.Marshal`, field by field. -/
theorem sentPayload_eq (env : Env) (g : GA4Client) (event : Event) (s : State) :
    sentPayload env g event s =
      { ClientID := toString (env.randSource s.randCalls % 2 ^ 31) ++ "." ++
          toString (Unix (env.clock s.clockCalls)),
        UserID := g.userID,
        TimestampMicros := UnixMicro (env.clock (s.clockCalls + 1)),
        Events := [{ Name := event.Name,
                     Params := some (inject env (callerParams s event)) }] } := by
  have hh := (marshalState_eq env g event s).1
  obtain ⟨name, params⟩ := event
  cases params with
  | none =>
    obtain ⟨h1, -, h3, h4⟩ := injectParams_heap_none env ⟨name, none⟩ s rfl
    simp only [sentPayload, hh]
    simp [buildPayload, State.Now, State.Int31, Payload.resolve, Event.resolve, h1, h3, h4]
  | some r =>
    obtain ⟨h1, -, -, h3, h4⟩ := injectParams_heap_some env ⟨name, some r⟩ s r rfl
    simp only [sentPayload, hh]
    simp [buildPayload, State.Now, State.Int31, Payload.resolve, Event.resolve, h1, h3, h4]

/-- Whatever the outcome, the state `SendEvent` returns is the state it had
when it reached `json.Marshal`. -/
theorem SendEvent_state (env : Env) (g : GA4Client) (event : Event) (s : State) :
    (SendEvent env g event s).state = marshalState env g event s := by
  rw [SendEvent_unfold]
  cases hm : jsonMarshal env (sentPayload env g event s) with
  | error e => rfl
  | ok bs =>
    simp only []
    cases hp : env.Post (requestURI g) "application/json" bs with
    | error e => rfl
    | ok res =>
      simp only []
      split
      · rfl
      · split
        · rfl
        · split
          · rfl
          · split <;> rfl

/-- C1: for every client (debug or not) and every event, if the payload
serialises and the POST returns a response with status code `c ≥ 300`, then
`SendEvent` returns the error "validation response got unexpected status c",
performs no read of the response body, and makes exactly one request. -/
theorem SendEvent_unexpected_status (env : Env) (g : GA4Client) (event : Event) (s : State)
    (bs : String) (res : Response)
    (hm : jsonMarshal env (sentPayload env g event s) = .ok bs)
    (hp : env.Post (requestURI g) "application/json" bs = .ok res)
    (hc : res.StatusCode ≥ 300) :
    (SendEvent env g event s).err =
        some ("validation response got unexpected status " ++ toString res.StatusCode) ∧
      bodyReads (SendEvent env g event s).effects = [] ∧
      posts (SendEvent env g event s).effects = [.post (requestURI g) "application/json" bs] := by
  rw [SendEvent_unfold]
  simp only [hm, hp, hc, if_true, true_and]
  constructor
  · rw [bodyReads_append, bodyReads_append, bodyReads_sendPrint]
    rfl
  · rw [posts_append, posts_append, posts_sendPrint]
    rfl

/-- C1, at the spec's scenario: a non-debug client, the login event, and a
transport that answers 400. -/
theorem SendEvent_unexpected_status_witness :
    (SendEvent (sampleEnv (.ok ⟨400, .ok "bad"⟩) (.ok ⟨[]⟩)) (sampleClient false) loginEvent
        (stateWith loginParams)).err =
      some "validation response got unexpected status 400" ∧
    bodyReads (SendEvent (sampleEnv (.ok ⟨400, .ok "bad"⟩) (.ok ⟨[]⟩)) (sampleClient false)
        loginEvent (stateWith loginParams)).effects = [] ∧
    (posts (SendEvent (sampleEnv (.ok ⟨400, .ok "bad"⟩) (.ok ⟨[]⟩)) (sampleClient false)
        loginEvent (stateWith loginParams)).effects).length = 1 := by
  have h := SendEvent_unexpected_status (sampleEnv (.ok ⟨400, .ok "bad"⟩) (.ok ⟨[]⟩))
    (sampleClient false) loginEvent (stateWith loginParams)
    (sampleEncode (sentPayload (sampleEnv (.ok ⟨400, .ok "bad"⟩) (.ok ⟨[]⟩))
      (sampleClient false) loginEvent (stateWith loginParams)))
    ⟨400, .ok "bad"⟩ rfl rfl (by decide)
  refine ⟨?_, h.2.1, ?_⟩
  · rw [h.1]; decide
  · rw [h.2.2]; rfl

/-- C2: the URL `SendEvent` posts to is the debug or the production collect
endpoint, chosen by the client's debug flag, followed by
`api_secret=E(apiSecret)&measurement_id=E(measurementID)` with the secret
first; every request `SendEvent` makes goes to that URL; and the escaping `E`
is the identity on strings of letters, digits, `-`, `_`, `.` and `~`. -/
theorem SendEvent_request_uri (g : GA4Client) :
    (requestURI g =
      (if g.debug then "https://www.google-analytics.com/debug/mp/collect?"
        else "https://www.google-analytics.com/mp/collect?") ++
        ("api_secret=" ++ QueryEscape g.apiSecret ++ "&measurement_id=" ++
          QueryEscape g.measurementID)) ∧
    (∀ (env : Env) (event : Event) (s : State) (u c b : String),
      Effect.post u c b ∈ (SendEvent env g event s).effects → u = requestURI g) ∧
    (∀ x : String,
      (∀ c ∈ x.toList, c.isAlpha = true ∨ c.isDigit = true ∨ c = '-' ∨ c = '_' ∨ c = '.' ∨
        c = '~') →
      QueryEscape x = x) := by
  refine ⟨?_, ?_, ?_⟩
  · unfold requestURI
    simp only [query_encode]
    split <;> rfl
  · intro env event s u c b h
    exact (SendEvent_post_mem env g event s u c b h).1
  · intro x hx
    have hu : ∀ c ∈ x.toList, unreserved c = true := by
      intro c hc
      rcases hx c hc with h | h | h | h | h | h
      · simp [unreserved, Char.isAlphanum, h]
      · simp [unreserved, Char.isAlphanum, h]
      all_goals (subst h; decide)
    unfold QueryEscape
    rw [flatMap_escapeChar_id _ hu]
    rfl

/-- C2, at the spec's scenario: secret "secret1", id "G-TEST123", debug off. -/
theorem SendEvent_request_uri_witness :
    requestURI (sampleClient false) =
        "https://www.google-analytics.com/mp/collect?api_secret=secret1&measurement_id=G-TEST123" ∧
      posts (SendEvent (sampleEnv (.ok ⟨204, .ok ""⟩) (.ok ⟨[]⟩)) (sampleClient false) loginEvent
        (stateWith loginParams)).effects =
        [.post
          "https://www.google-analytics.com/mp/collect?api_secret=secret1&measurement_id=G-TEST123"
          "application/json" "41.1700000000/u-1/1700000000123456/login"] := by
  constructor
  · rw [(SendEvent_request_uri (sampleClient false)).1]
    decide
  · rfl

/-- C3: for every event, whether its params mapping is nil, empty or
populated, `SendEvent` marshals exactly one payload, every body it posts is
the encoding of that payload, and the params of the payload's event map "os"
to `runtime.GOOS`, "arch" to `runtime.GOARCH` and "version" to `VERSION`
whatever the caller had stored there, and agree with the caller's mapping at
every other key. -/
theorem SendEvent_payload_params (env : Env) (g : GA4Client) (event : Event) (s : State) :
    (∀ d, Effect.marshal d ∈ (SendEvent env g event s).effects ↔
      d = sentPayload env g event s) ∧
    (∀ u c b, Effect.post u c b ∈ (SendEvent env g event s).effects →
      b = env.jsonEncode (sentPayload env g event s)) ∧
    ∃ ev m, (sentPayload env g event s).Events = [ev] ∧ ev.Params = some m ∧
      m.get "os" = some (.str env.GOOS) ∧
      m.get "arch" = some (.str env.GOARCH) ∧
      m.get "version" = some (.str env.VERSION) ∧
      ∀ k, k ≠ "os" → k ≠ "arch" → k ≠ "version" → m.get k = (callerParams s event).get k := by
  refine ⟨SendEvent_marshal_mem env g event s, ?_, ?_⟩
  · intro u c b h
    have hm := (SendEvent_post_mem env g event s u c b h).2.2
    unfold jsonMarshal at hm
    split at hm
    · injection hm with hm
      exact hm.symm
    · cases hm
  · rw [sentPayload_eq]
    exact ⟨_, _, rfl, rfl, inject_get_os env _, inject_get_arch env _,
      inject_get_version env _, fun k h1 h2 h3 => inject_get_other env _ k h1 h2 h3⟩

/-- C3, at the spec's scenario: params `method = email` leave the payload with
exactly the keys version, arch, os and method, and the caller's value at
"method". -/
theorem SendEvent_payload_params_witness :
    Effect.marshal (sentPayload (sampleEnv (.ok ⟨204, .ok ""⟩) (.ok ⟨[]⟩)) (sampleClient false)
        loginEvent (stateWith loginParams)) ∈
      (SendEvent (sampleEnv (.ok ⟨204, .ok ""⟩) (.ok ⟨[]⟩)) (sampleClient false) loginEvent
        (stateWith loginParams)).effects ∧
    (sentPayload (sampleEnv (.ok ⟨204, .ok ""⟩) (.ok ⟨[]⟩)) (sampleClient false) loginEvent
        (stateWith loginParams)).Events.map (fun e => e.Params.map (List.map Prod.fst)) =
      [some ["version", "arch", "os", "method"]] ∧
    (sentPayload (sampleEnv (.ok ⟨204, .ok ""⟩) (.ok ⟨[]⟩)) (sampleClient false) loginEvent
        (stateWith loginParams)).Events.map
          (fun e => e.Params.map fun m => (m.get "method", m.get "os", m.get "arch", m.get "version")) =
      [some (some (.str "email"), some (.str "linux"), some (.str "amd64"),
        some (.str "1.0.0"))] :=
  ⟨((SendEvent_payload_params (sampleEnv (.ok ⟨204, .ok ""⟩) (.ok ⟨[]⟩)) (sampleClient false)
      loginEvent (stateWith loginParams)).1 _).2 rfl, by decide, rfl⟩

/-- C4: for every client and event, the one payload `SendEvent` marshals has
an events sequence of length exactly 1; its single element has the submitted
event's name and the submitted params after the os/arch/version injection; and
the payload's user id is the client's user id. -/
theorem SendEvent_payload_event (env : Env) (g : GA4Client) (event : Event) (s : State) :
    (∀ d, Effect.marshal d ∈ (SendEvent env g event s).effects ↔
      d = sentPayload env g event s) ∧
    (sentPayload env g event s).Events.length = 1 ∧
    (sentPayload env g event s).Events =
      [{ Name := event.Name, Params := some (inject env (callerParams s event)) }] ∧
    (sentPayload env g event s).UserID = g.userID := by
  refine ⟨SendEvent_marshal_mem env g event s, ?_, ?_, ?_⟩ <;> rw [sentPayload_eq]
  rfl

/-- C4, at the spec's scenario. -/
theorem SendEvent_payload_event_witness :
    (sentPayload (sampleEnv (.ok ⟨204, .ok ""⟩) (.ok ⟨[]⟩)) (sampleClient false) loginEvent
        (stateWith loginParams)).Events.map (fun e => e.Name) = ["login"] ∧
    (sentPayload (sampleEnv (.ok ⟨204, .ok ""⟩) (.ok ⟨[]⟩)) (sampleClient false) loginEvent
        (stateWith loginParams)).UserID = "u-1" := by
  have h := SendEvent_payload_event (sampleEnv (.ok ⟨204, .ok ""⟩) (.ok ⟨[]⟩))
    (sampleClient false) loginEvent (stateWith loginParams)
  exact ⟨by rw [h.2.2.1]; rfl, h.2.2.2⟩

/-- C5: for every measurementID, apiSecret, debug flag and non-empty userID,
`NewGA4Client` returns no error and a client whose user id is the supplied one
and whose other fields are the arguments; it does not call the UUID generator
and does not read the clock. -/
theorem NewGA4Client_supplied_user (env : Env) (measurementID apiSecret userID : String)
    (debug : Bool) (s : State) (h : userID ≠ "") :
    (NewGA4Client env measurementID apiSecret userID debug s).err = none ∧
    (NewGA4Client env measurementID apiSecret userID debug s).client =
      some { measurementID := measurementID, apiSecret := apiSecret, userID := userID,
             httpClient := { Timeout := 5000000000 }, debug := debug } ∧
    (NewGA4Client env measurementID apiSecret userID debug s).effects = [] ∧
    (NewGA4Client env measurementID apiSecret userID debug s).state.clockCalls = s.clockCalls := by
  simp [NewGA4Client, h]

/-- C5, with the user id "u-1" and a generator that would fail if called. -/
theorem NewGA4Client_supplied_user_witness :
    (NewGA4Client (sampleEnv (.ok ⟨204, .ok ""⟩) (.error "no entropy")) "G-TEST123" "secret1"
        "u-1" false (stateWith [])).err = none ∧
    (NewGA4Client (sampleEnv (.ok ⟨204, .ok ""⟩) (.error "no entropy")) "G-TEST123" "secret1"
        "u-1" false (stateWith [])).client = some (sampleClient false) :=
  have h := NewGA4Client_supplied_user (sampleEnv (.ok ⟨204, .ok ""⟩) (.error "no entropy"))
    "G-TEST123" "secret1" "u-1" false (stateWith []) (by decide)
  ⟨h.1, h.2.1⟩

/-- C9: `NewGA4Client` returns an error exactly when userID is empty and the
version-7 UUID generator, called on the current time, fails; it then returns
no client and the generator's error.  When userID is empty and the generator
succeeds, it returns no error and a client whose user id is the string form of
the generated UUID. -/
theorem NewGA4Client_error_iff (env : Env) (measurementID apiSecret userID : String)
    (debug : Bool) (s : State) :
    ((NewGA4Client env measurementID apiSecret userID debug s).err ≠ none ↔
      userID = "" ∧ ∃ e, env.NewV7 (env.clock s.clockCalls) = .error e) ∧
    (∀ e, userID = "" → env.NewV7 (env.clock s.clockCalls) = .error e →
      (NewGA4Client env measurementID apiSecret userID debug s).client = none ∧
      (NewGA4Client env measurementID apiSecret userID debug s).err = some e) ∧
    (∀ u, userID = "" → env.NewV7 (env.clock s.clockCalls) = .ok u →
      (NewGA4Client env measurementID apiSecret userID debug s).err = none ∧
      (NewGA4Client env measurementID apiSecret userID debug s).client =
        some { measurementID := measurementID, apiSecret := apiSecret,
               userID := env.UUIDString u, httpClient := { Timeout := 5000000000 },
               debug := debug }) := by
  refine ⟨?_, ?_, ?_⟩
  · by_cases h : userID = ""
    · cases hu : env.NewV7 (env.clock s.clockCalls) with
      | error e => simp [NewGA4Client, h, State.Now, hu]
      | ok u => simp [NewGA4Client, h, State.Now, hu]
    · simp [NewGA4Client, h]
  · intro e h hu
    simp [NewGA4Client, h, State.Now, hu]
  · intro u h hu
    simp [NewGA4Client, h, State.Now, hu]

/-- C9, with an empty user id: a failing generator gives its error and no
client, a working one gives a client named after the UUID. -/
theorem NewGA4Client_error_iff_witness :
    ((NewGA4Client (sampleEnv (.ok ⟨204, .ok ""⟩) (.error "no entropy")) "G-TEST123" "secret1"
        "" false (stateWith [])).client = none ∧
      (NewGA4Client (sampleEnv (.ok ⟨204, .ok ""⟩) (.error "no entropy")) "G-TEST123" "secret1"
        "" false (stateWith [])).err = some "no entropy") ∧
    ((NewGA4Client (sampleEnv (.ok ⟨204, .ok ""⟩) (.ok ⟨[1, 146]⟩)) "G-TEST123" "secret1"
        "" true (stateWith [])).err = none ∧
      (NewGA4Client (sampleEnv (.ok ⟨204, .ok ""⟩) (.ok ⟨[1, 146]⟩)) "G-TEST123" "secret1"
        "" true (stateWith [])).client =
        some { measurementID := "G-TEST123", apiSecret := "secret1", userID := "1-146",
               httpClient := { Timeout := 5000000000 }, debug := true }) :=
  ⟨(NewGA4Client_error_iff (sampleEnv (.ok ⟨204, .ok ""⟩) (.error "no entropy")) "G-TEST123"
      "secret1" "" false (stateWith [])).2.1 "no entropy" rfl rfl,
   (NewGA4Client_error_iff (sampleEnv (.ok ⟨204, .ok ""⟩) (.ok ⟨[1, 146]⟩)) "G-TEST123"
      "secret1" "" true (stateWith [])).2.2 ⟨[1, 146]⟩ rfl rfl⟩

/-- C6: for every client with debug off and every event, `SendEvent` returns
nil exactly when the payload serialises, the POST yields a response and the
status code is below 300; it never reads the response body, and in the success
case its effects end with the request, whatever the response body holds. -/
theorem SendEvent_nodebug_success_iff (env : Env) (g : GA4Client) (event : Event) (s : State)
    (hd : g.debug = false) :
    ((SendEvent env g event s).err = none ↔
      ∃ bs res, jsonMarshal env (sentPayload env g event s) = .ok bs ∧
        env.Post (requestURI g) "application/json" bs = .ok res ∧ res.StatusCode < 300) ∧
    bodyReads (SendEvent env g event s).effects = [] ∧
    (∀ bs res, jsonMarshal env (sentPayload env g event s) = .ok bs →
      env.Post (requestURI g) "application/json" bs = .ok res → res.StatusCode < 300 →
      (SendEvent env g event s).effects =
        [.marshal (sentPayload env g event s), .post (requestURI g) "application/json" bs]) := by
  have hsp := sendPrint_nodebug env g event s hd
  rw [SendEvent_unfold]
  simp only [hsp, hd, if_true, List.nil_append]
  cases hm : jsonMarshal env (sentPayload env g event s) with
  | error e =>
    refine ⟨?_, rfl, ?_⟩
    · simp
    · intro bs res h
      cases h
  | ok bs =>
    simp only []
    cases hp : env.Post (requestURI g) "application/json" bs with
    | error e =>
      refine ⟨?_, rfl, ?_⟩
      · simp [hp]
      · intro bs' res h
        injection h with h
        subst h
        intro h'
        rw [hp] at h'
        cases h'
    | ok res =>
      simp only []
      by_cases hc : res.StatusCode ≥ 300
      · simp only [hc, if_true]
        refine ⟨?_, rfl, ?_⟩
        · simp [hp]
          omega
        · intro bs' res' h
          injection h with h
          subst h
          intro h'
          rw [hp] at h'
          injection h' with h'
          subst h'
          intro h''
          omega
      · simp only [hc, if_false]
        refine ⟨?_, rfl, ?_⟩
        · simp [hp]
          omega
        · intro bs' res' h
          injection h with h
          subst h
          intro _ _
          rfl

/-- C6, at the spec's scenario: debug off, status 204, and a body that is not
JSON. -/
theorem SendEvent_nodebug_success_iff_witness :
    (SendEvent (sampleEnv (.ok ⟨204, .ok "<html>"⟩) (.ok ⟨[]⟩)) (sampleClient false) loginEvent
        (stateWith loginParams)).err = none ∧
    bodyReads (SendEvent (sampleEnv (.ok ⟨204, .ok "<html>"⟩) (.ok ⟨[]⟩)) (sampleClient false)
        loginEvent (stateWith loginParams)).effects = [] :=
  have h := SendEvent_nodebug_success_iff (sampleEnv (.ok ⟨204, .ok "<html>"⟩) (.ok ⟨[]⟩))
    (sampleClient false) loginEvent (stateWith loginParams) rfl
  ⟨h.1.2 ⟨_, ⟨204, .ok "<html>"⟩, rfl, rfl, by decide⟩, h.2.1⟩

/-- C7: for every client with debug on and every event, when the payload
serialises and the POST returns a status below 300: if the body is read in full
and decodes as a `ValidationResponse`, `SendEvent` reads the body and returns
nil; if the body is read but does not decode, it returns the error "unmarshal
GA4 response body failed".  The decoded response does not reach the caller:
the returned error and state are the same for any other decoder that accepts
the body. -/
theorem SendEvent_debug_body (env : Env) (g : GA4Client) (event : Event) (s : State)
    (bs : String) (res : Response) (hd : g.debug = true)
    (hm : jsonMarshal env (sentPayload env g event s) = .ok bs)
    (hp : env.Post (requestURI g) "application/json" bs = .ok res)
    (hc : res.StatusCode < 300) :
    (∀ body v, res.Body = .ok body → env.jsonDecode body = some v →
      (SendEvent env g event s).err = none ∧
      bodyReads (SendEvent env g event s).effects = [.readAll]) ∧
    (∀ body, res.Body = .ok body → env.jsonDecode body = none →
      (SendEvent env g event s).err = some "unmarshal GA4 response body failed") ∧
    (∀ body v (dec : String → Option ValidationResponse) (w : ValidationResponse),
      res.Body = .ok body → env.jsonDecode body = some v → dec body = some w →
      (SendEvent { env with jsonDecode := dec } g event s).err = (SendEvent env g event s).err ∧
      (SendEvent { env with jsonDecode := dec } g event s).state =
        (SendEvent env g event s).state) := by
  have hc' : ¬ res.StatusCode ≥ 300 := by omega
  have hsp := bodyReads_sendPrint env g event s
  refine ⟨?_, ?_, ?_⟩
  · intro body v hb hj
    rw [SendEvent_unfold]
    simp only [hm, hp, hc', hd, hb, hj, if_false, Bool.true_eq_false]
    refine ⟨trivial, ?_⟩
    rw [bodyReads_append, bodyReads_append, bodyReads_append, bodyReads_append,
      bodyReads_append, hsp]
    rfl
  · intro body hb hj
    rw [SendEvent_unfold]
    simp only [hm, hp, hc', hd, hb, hj, if_false, Bool.true_eq_false]
  · intro body v dec w hb hj hw
    have hm2 : jsonMarshal { env with jsonDecode := dec }
        (sentPayload { env with jsonDecode := dec } g event s) = .ok bs := hm
    have hp2 : Env.Post { env with jsonDecode := dec } (requestURI g) "application/json" bs =
        .ok res := hp
    have hj2 : Env.jsonDecode { env with jsonDecode := dec } body = some w := hw
    constructor
    · rw [SendEvent_unfold, SendEvent_unfold]
      simp only [hm, hp, hm2, hp2, hj2, hw, hc', hd, hb, hj, if_false, Bool.true_eq_false]
    · rw [SendEvent_state, SendEvent_state]
      rfl

/-- C7, at the spec's scenarios: debug on and status 200, once with a body
that is not JSON and once with a well-formed validation body. -/
theorem SendEvent_debug_body_witness :
    (SendEvent (sampleEnv (.ok ⟨200, .ok "<html>"⟩) (.ok ⟨[]⟩)) (sampleClient true) loginEvent
        (stateWith loginParams)).err = some "unmarshal GA4 response body failed" ∧
    (SendEvent (sampleEnv (.ok ⟨200, .ok "\x7b\"validationMessages\":[]\x7d"⟩) (.ok ⟨[]⟩))
        (sampleClient true) loginEvent (stateWith loginParams)).err = none :=
  ⟨(SendEvent_debug_body (sampleEnv (.ok ⟨200, .ok "<html>"⟩) (.ok ⟨[]⟩)) (sampleClient true)
      loginEvent (stateWith loginParams) _ ⟨200, .ok "<html>"⟩ rfl rfl rfl (by decide)).2.1
      "<html>" rfl rfl,
   ((SendEvent_debug_body
      (sampleEnv (.ok ⟨200, .ok "\x7b\"validationMessages\":[]\x7d"⟩) (.ok ⟨[]⟩))
      (sampleClient true) loginEvent (stateWith loginParams) _
      ⟨200, .ok "\x7b\"validationMessages\":[]\x7d"⟩ rfl rfl rfl (by decide)).1
      "\x7b\"validationMessages\":[]\x7d" ⟨[("validationMessages", .list [])]⟩ rfl rfl).1⟩

/-- C10, as stated, fails in its last part: when the caller's mapping already
holds the three environment entries (an event submitted a second time), a call
that fails in the transport leaves the mapping exactly as it was. -/
theorem SendEvent_failed_call_map_unchanged :
    (SendEvent (sampleEnv (.error "timeout") (.ok ⟨[]⟩)) (sampleClient false) loginEvent
        (stateWith resentParams)).err = some "request GA4 failed" ∧
    (SendEvent (sampleEnv (.error "timeout") (.ok ⟨[]⟩)) (sampleClient false) loginEvent
        (stateWith resentParams)).state.heap 0 = (stateWith resentParams).heap 0 :=
  ⟨rfl, rfl⟩

/-- C10, amended: for every client and every event whose params mapping is
present, the assignments of os, arch and version are made in the caller's own
map object before the payload is marshalled and before any request: the one
payload marshalled already holds them, and when `SendEvent` returns, with
success or with any error, the caller's map holds the three environment
entries and agrees with its former contents at every other key, and no other
map object has changed.  The mapping therefore differs from what it was
whenever it did not already hold those three values, also after a failed
call. -/
theorem SendEvent_caller_params (env : Env) (g : GA4Client) (event : Event) (s : State)
    (r : Nat) (h : event.Params = some r) :
    (∀ d, Effect.marshal d ∈ (SendEvent env g event s).effects →
      d.Events = [{ Name := event.Name, Params := some (inject env (s.heap r)) }]) ∧
    (∀ u c b, Effect.post u c b ∈ (SendEvent env g event s).effects →
      b = env.jsonEncode (sentPayload env g event s) ∧
      (sentPayload env g event s).Events =
        [{ Name := event.Name, Params := some (inject env (s.heap r)) }]) ∧
    (SendEvent env g event s).state.heap r = inject env (s.heap r) ∧
    ((SendEvent env g event s).state.heap r).get "os" = some (.str env.GOOS) ∧
    ((SendEvent env g event s).state.heap r).get "arch" = some (.str env.GOARCH) ∧
    ((SendEvent env g event s).state.heap r).get "version" = some (.str env.VERSION) ∧
    (∀ k, k ≠ "os" → k ≠ "arch" → k ≠ "version" →
      ((SendEvent env g event s).state.heap r).get k = (s.heap r).get k) ∧
    (∀ r', r' ≠ r → (SendEvent env g event s).state.heap r' = s.heap r') ∧
    ((s.heap r).get "os" ≠ some (.str env.GOOS) ∨ (s.heap r).get "arch" ≠ some (.str env.GOARCH) ∨
        (s.heap r).get "version" ≠ some (.str env.VERSION) →
      (SendEvent env g event s).state.heap r ≠ s.heap r) ∧
    ((s.heap r).get "os" = some (.str env.GOOS) → (s.heap r).get "arch" = some (.str env.GOARCH) →
        (s.heap r).get "version" = some (.str env.VERSION) →
      ∀ k, ((SendEvent env g event s).state.heap r).get k = (s.heap r).get k) := by
  have hcp : callerParams s event = s.heap r := by simp [callerParams, h]
  have hheap : (SendEvent env g event s).state.heap =
      Function.update s.heap r (inject env (s.heap r)) := by
    rw [SendEvent_state, (marshalState_eq env g event s).1, h, hcp]
    rfl
  have hr : (SendEvent env g event s).state.heap r = inject env (s.heap r) := by
    rw [hheap, Function.update_same]
  refine ⟨?_, ?_, hr, ?_, ?_, ?_, ?_, ?_, ?_, ?_⟩
  · intro d hd
    rw [(SendEvent_marshal_mem env g event s d).1 hd, sentPayload_eq, hcp]
  · intro u c b hb
    have hm := (SendEvent_post_mem env g event s u c b hb).2.2
    constructor
    · unfold jsonMarshal at hm
      split at hm
      · injection hm with hm
        exact hm.symm
      · cases hm
    · rw [sentPayload_eq, hcp]
  · rw [hr]; exact inject_get_os env _
  · rw [hr]; exact inject_get_arch env _
  · rw [hr]; exact inject_get_version env _
  · intro k h1 h2 h3
    rw [hr]; exact inject_get_other env _ k h1 h2 h3
  · intro r' hne
    rw [hheap, Function.update_noteq hne]
  · intro hdiff heq
    rw [hr] at heq
    rcases hdiff with hd | hd | hd
    · exact hd (heq ▸ inject_get_os env _)
    · exact hd (heq ▸ inject_get_arch env _)
    · exact hd (heq ▸ inject_get_version env _)
  · intro h1 h2 h3 k
    rw [hr]
    by_cases k1 : k = "os"
    · rw [k1, inject_get_os, h1]
    · by_cases k2 : k = "arch"
      · rw [k2, inject_get_arch, h2]
      · by_cases k3 : k = "version"
        · rw [k3, inject_get_version, h3]
        · exact inject_get_other env _ k k1 k2 k3

/-- C10, amended, at a call that fails in the transport: the caller's map,
which held only `method`, holds the three environment entries afterwards. -/
theorem SendEvent_caller_params_witness :
    (SendEvent (sampleEnv (.error "timeout") (.ok ⟨[]⟩)) (sampleClient false) loginEvent
        (stateWith loginParams)).err = some "request GA4 failed" ∧
    ((SendEvent (sampleEnv (.error "timeout") (.ok ⟨[]⟩)) (sampleClient false) loginEvent
        (stateWith loginParams)).state.heap 0).get "os" = some (.str "linux") ∧
    ((SendEvent (sampleEnv (.error "timeout") (.ok ⟨[]⟩)) (sampleClient false) loginEvent
        (stateWith loginParams)).state.heap 0).get "method" = some (.str "email") :=
  have h := SendEvent_caller_params (sampleEnv (.error "timeout") (.ok ⟨[]⟩)) (sampleClient false)
    loginEvent (stateWith loginParams) 0 rfl
  ⟨rfl, h.2.2.2.1, (h.2.2.2.2.2.2.1 "method" (by decide) (by decide) (by decide)).trans rfl⟩

end GA4
